import Mathlib

/-!
Verification of the appointment-scheduling logic of the Frontend_AOS
single-page application.

The development shallowly embeds, in Lean, the domain logic of the
repository:

* the availability-to-timeslot computation of
  `src/components/appointments/AppointmentList.tsx` (the `useEffect`
  computing `availableTimes`, its `hasAppointment` conflict test, the
  `validateForm` form validation, the `shouldDisableTime` time-picker
  filter and the `handleSubmit` submission path);
* the local token checks of `checkAuth` in `src/contexts/AuthContext.tsx`;
* the `appointmentService.getAppointments` error policy of the API
  service module.

Modelling conventions:

* Time-of-day strings `"HH:mm"` are represented by their minutes-since-
  midnight value (a `Nat` below 1440).  For well-formed, zero-padded
  `"HH:mm"` strings this representation is bijective and order-preserving
  (both string equality and lexicographic comparison agree with the
  numeric ones), so equality tests such as `app.time === timeStr` and the
  `dayjs` comparisons `isBefore`/`add(30, 'minute')` become `Nat`
  operations.  The hour of a time `t` is `t / 60`, its minute `t % 60`.
* Calendar dates `"YYYY-MM-DD"` are represented by a day index (`Nat`).
  Only equality of dates and the weekday of a date matter to the embedded
  logic; the weekday is `dayIndex % 7` with index 0 chosen to be a Monday
  (the anchoring is irrelevant to every claim).
* The `doctor` field of an appointment is either a bare id string or a
  resolved doctor object, exactly as in the TypeScript `Doctor | string`
  union; it is embedded as a sum type `DoctorRef`.
-/

/-- Weekdays, from `type DayOfWeek` in `src/types/index.ts`. -/
inductive DayOfWeek
  | monday | tuesday | wednesday | thursday | friday | saturday | sunday
deriving DecidableEq, Repr

/-- The weekday of a date, as `selectedDate.format('dddd').toLowerCase()`
computes it,
with day index 0 anchored (arbitrarily) to a Monday. -/
def weekdayOf (d : Nat) : DayOfWeek :=
  match d % 7 with
  | 0 => .monday
  | 1 => .tuesday
  | 2 => .wednesday
  | 3 => .thursday
  | 4 => .friday
  | 5 => .saturday
  | _ => .sunday

/-- One availability window, from `interface Availability` in
`src/types/index.ts`: `{ day, startTime, endTime }` with the `"HH:mm"`
times as minutes since midnight. -/
structure Availability where
  day : DayOfWeek
  startTime : Nat
  endTime : Nat
deriving DecidableEq, Repr

/-- A doctor, from `interface Doctor` in `src/types/index.ts`, restricted
to the fields the embedded logic reads (`_id` and `availability`; the
purely informational fields — name, email, speciality, … — are never
consulted by the slot computation or the forms). -/
structure Doctor where
  _id : String
  availability : List Availability
deriving DecidableEq, Repr

/-- Appointment statuses, from `type AppointmentStatus` in
`src/types/index.ts`. -/
inductive AppointmentStatus
  | pending | confirmed | cancelled | completed | archived | noShow
deriving DecidableEq, Repr, Fintype

/-- The `doctor : Doctor | string` union of `interface Appointment`. -/
inductive DoctorRef
  | id (s : String)
  | resolved (d : Doctor)
deriving DecidableEq, Repr

/-- An appointment, from `interface Appointment` in `src/types/index.ts`,
restricted to the fields read by the embedded logic. -/
structure Appointment where
  _id : String
  doctor : DoctorRef
  date : Nat
  time : Nat
  status : AppointmentStatus
  reason : String
  isArchived : Bool
deriving DecidableEq, Repr

/-- The doctor-identity comparison inside `hasAppointment`
(`AppointmentList.tsx`, lines 229–231):
`typeof app.doctor === 'string' ? app.doctor === selectedDoctor._id :
app.doctor._id === selectedDoctor._id`. -/
def refMatchesDoctor (r : DoctorRef) (docId : String) : Bool :=
  match r with
  | .id s => s == docId
  | .resolved d => d._id == docId

/-- The `hasAppointment` test of the `availableTimes` effect
(`AppointmentList.tsx`, lines 225–232): some appointment in the list has
the selected date, the candidate time, a status other than `cancelled`,
and the selected doctor. -/
def hasAppointment (apps : List Appointment) (selDate : Nat) (selDoc : Doctor)
    (t : Nat) : Bool :=
  apps.any fun app =>
    app.date == selDate && app.time == t &&
      !(app.status == AppointmentStatus.cancelled) &&
      refMatchesDoctor app.doctor selDoc._id

/-- The `while (current.isBefore(end))` loop of the `availableTimes`
effect (`AppointmentList.tsx`, lines 220–241): starting from `cur`, step
by 30 minutes up to (excluding) `endT`; a time is pushed when it has no
conflicting appointment and its hour lies in `[8, 17)`. -/
def slotLoop (apps : List Appointment) (selDate : Nat) (selDoc : Doctor)
    (endT cur : Nat) : List Nat :=
  if cur < endT then
    (if hasAppointment apps selDate selDoc cur = false ∧
        8 ≤ cur / 60 ∧ cur / 60 < 17 then
      [cur]
    else []) ++ slotLoop apps selDate selDoc endT (cur + 30)
  else []
termination_by endT - cur
decreasing_by omega

/-- The `availableTimes` computation (`AppointmentList.tsx`, lines
210–250) for a selected doctor and date: find the doctor's availability
entry for the date's weekday and enumerate its 30-minute slots; no entry
for that weekday yields the empty list. -/
def availableTimesFor (doc : Doctor) (selDate : Nat)
    (apps : List Appointment) : List Nat :=
  match doc.availability.find? (fun a => a.day == weekdayOf selDate) with
  | some av => slotLoop apps selDate doc av.endTime av.startTime
  | none => []

/-- The outer guard of the effect: with no selected doctor or no selected
date, `availableTimes` is set to `[]`. -/
def computeAvailableTimes (doc : Option Doctor) (selDate : Option Nat)
    (apps : List Appointment) : List Nat :=
  match doc, selDate with
  | some d, some dt => availableTimesFor d dt apps
  | _, _ => []

/-- Membership in the slot loop: exactly the 30-minute grid points of the
window that pass the conflict test and the operating-hours test. -/
theorem mem_slotLoop (apps : List Appointment) (selDate : Nat)
    (selDoc : Doctor) (endT cur t : Nat) :
    t ∈ slotLoop apps selDate selDoc endT cur ↔
      (∃ k, t = cur + 30 * k) ∧ t < endT ∧
        hasAppointment apps selDate selDoc t = false ∧
        8 ≤ t / 60 ∧ t / 60 < 17 := by
  rw [slotLoop]
  by_cases h : cur < endT
  · rw [if_pos h]
    have ih := mem_slotLoop apps selDate selDoc endT (cur + 30) t
    constructor
    · intro hmem
      rcases List.mem_append.mp hmem with hl | hr
      · by_cases hk : hasAppointment apps selDate selDoc cur = false ∧
            8 ≤ cur / 60 ∧ cur / 60 < 17
        · rw [if_pos hk] at hl
          have ht : t = cur := List.mem_singleton.mp hl
          subst ht
          exact ⟨⟨0, by omega⟩, h, hk.1, hk.2.1, hk.2.2⟩
        · rw [if_neg hk] at hl
          exact absurd hl (List.not_mem_nil t)
      · obtain ⟨⟨k, hk⟩, hlt, hpass⟩ := ih.mp hr
        exact ⟨⟨k + 1, by omega⟩, hlt, hpass⟩
    · rintro ⟨⟨k, hk⟩, hlt, hpass⟩
      rcases k with _ | k'
      · have ht : t = cur := by omega
        subst ht
        apply List.mem_append.mpr
        left
        rw [if_pos ⟨hpass.1, hpass.2.1, hpass.2.2⟩]
        exact List.mem_singleton.mpr rfl
      · apply List.mem_append.mpr
        right
        exact ih.mpr ⟨⟨k', by omega⟩, hlt, hpass⟩
  · rw [if_neg h]
    simp only [List.not_mem_nil, false_iff]
    rintro ⟨⟨k, hk⟩, hlt, -⟩
    omega
termination_by endT - cur
decreasing_by omega

/-- Every element of the slot loop is at least the loop's cursor. -/
theorem slotLoop_lower_bound (apps : List Appointment) (selDate : Nat)
    (selDoc : Doctor) (endT cur t : Nat)
    (h : t ∈ slotLoop apps selDate selDoc endT cur) : cur ≤ t := by
  obtain ⟨⟨k, hk⟩, -, -⟩ := (mem_slotLoop apps selDate selDoc endT cur t).mp h
  omega

/-- The slot loop produces a strictly ascending list. -/
theorem slotLoop_pairwise (apps : List Appointment) (selDate : Nat)
    (selDoc : Doctor) (endT cur : Nat) :
    List.Pairwise (· < ·) (slotLoop apps selDate selDoc endT cur) := by
  rw [slotLoop]
  by_cases h : cur < endT
  · rw [if_pos h]
    have ihp := slotLoop_pairwise apps selDate selDoc endT (cur + 30)
    by_cases hk : hasAppointment apps selDate selDoc cur = false ∧
        8 ≤ cur / 60 ∧ cur / 60 < 17
    · rw [if_pos hk]
      refine List.pairwise_cons.mpr ⟨?_, ihp⟩
      intro t ht
      have := slotLoop_lower_bound apps selDate selDoc endT (cur + 30) t ht
      omega
    · rw [if_neg hk]
      simpa using ihp
  · rw [if_neg h]
    exact List.Pairwise.nil
termination_by endT - cur
decreasing_by omega

/-- C1: every time produced by the slot computation for an availability
window matching the selected date's weekday lies in `[startTime, endTime)`
on the 30-minute grid anchored at `startTime` with hour in `[8, 17)`, the
produced list is strictly ascending, and a weekday with no availability
entry produces the empty list. -/
theorem slot_generation_sound (doc : Doctor) (selDate : Nat)
    (apps : List Appointment) :
    (∀ av, doc.availability.find? (fun a => a.day == weekdayOf selDate) =
        some av →
      ∀ t ∈ availableTimesFor doc selDate apps,
        av.startTime ≤ t ∧ t < av.endTime ∧ (t - av.startTime) % 30 = 0 ∧
          8 ≤ t / 60 ∧ t / 60 < 17) ∧
    List.Pairwise (· < ·) (availableTimesFor doc selDate apps) ∧
    (doc.availability.find? (fun a => a.day == weekdayOf selDate) = none →
      availableTimesFor doc selDate apps = []) := by
  refine ⟨?_, ?_, ?_⟩
  · intro av hav t ht
    unfold availableTimesFor at ht
    rw [hav] at ht
    obtain ⟨⟨k, hk⟩, hlt, -, hh1, hh2⟩ :=
      (mem_slotLoop apps selDate doc av.endTime av.startTime t).mp ht
    exact ⟨by omega, hlt, by omega, hh1, hh2⟩
  · unfold availableTimesFor
    cases hfind : doc.availability.find? (fun a => a.day == weekdayOf selDate)
    · exact List.Pairwise.nil
    · exact slotLoop_pairwise _ _ _ _ _
  · intro h
    unfold availableTimesFor
    rw [h]

/-- Concrete doctor for exercising `slot_generation_sound`: available on
Mondays from 08:00 (= 480) to 10:00 (= 600). -/
def c1doc : Doctor := ⟨"doc-1", [⟨.monday, 480, 600⟩]⟩

/-- Witness for C1 at a concrete input: with the Monday 08:00–10:00
window, day 0 (a Monday) and no appointments, the produced slot 510
(08:30) satisfies every bound of the claim. -/
theorem slot_generation_sound_witness :
    480 ≤ 510 ∧ 510 < 600 ∧ (510 - 480) % 30 = 0 ∧ 8 ≤ 510 / 60 ∧
      510 / 60 < 17 := by
  have hmem : 510 ∈ availableTimesFor c1doc 0 [] := by
    unfold availableTimesFor
    rw [show c1doc.availability.find? (fun a => a.day == weekdayOf 0) =
      some ⟨.monday, 480, 600⟩ from rfl]
    exact (mem_slotLoop [] 0 c1doc 600 480 510).mpr
      ⟨⟨1, by omega⟩, by omega, rfl, by omega, by omega⟩
  exact (slot_generation_sound c1doc 0 []).1 ⟨.monday, 480, 600⟩ rfl 510 hmem

/-- Membership in the computed available times, for a window matching the
selected weekday, is exactly absence of a conflicting appointment (for a
candidate on the window's 30-minute grid inside operating hours). -/
theorem mem_availableTimesFor (doc : Doctor) (selDate : Nat)
    (apps : List Appointment) (av : Availability) (t : Nat)
    (hfind : doc.availability.find? (fun a => a.day == weekdayOf selDate) =
      some av)
    (hs : av.startTime ≤ t) (he : t < av.endTime)
    (hg : (t - av.startTime) % 30 = 0)
    (hh : 8 ≤ t / 60 ∧ t / 60 < 17) :
    t ∈ availableTimesFor doc selDate apps ↔
      hasAppointment apps selDate doc t = false := by
  unfold availableTimesFor
  rw [hfind]
  show t ∈ slotLoop apps selDate doc av.endTime av.startTime ↔ _
  rw [mem_slotLoop]
  constructor
  · rintro ⟨-, -, hpass, -⟩
    exact hpass
  · intro hpass
    exact ⟨⟨(t - av.startTime) / 30, by omega⟩, he, hpass, hh.1, hh.2⟩

/-- C2: a candidate slot (a 30-minute grid point of the matched window,
inside operating hours) is excluded from the available times exactly when
some appointment has the selected date, that time, a non-cancelled status
and the selected doctor — the doctor comparison succeeding both for a
bare id string and for a resolved doctor object (compared by `_id`). -/
theorem conflict_filter_exact (doc : Doctor) (selDate : Nat)
    (apps : List Appointment) (av : Availability) (t : Nat)
    (hfind : doc.availability.find? (fun a => a.day == weekdayOf selDate) =
      some av)
    (hs : av.startTime ≤ t) (he : t < av.endTime)
    (hg : (t - av.startTime) % 30 = 0)
    (hh : 8 ≤ t / 60 ∧ t / 60 < 17) :
    (t ∉ availableTimesFor doc selDate apps ↔
      ∃ app ∈ apps, app.date = selDate ∧ app.time = t ∧
        app.status ≠ AppointmentStatus.cancelled ∧
        ((∃ s, app.doctor = DoctorRef.id s ∧ s = doc._id) ∨
         (∃ d, app.doctor = DoctorRef.resolved d ∧ d._id = doc._id))) := by
  rw [mem_availableTimesFor doc selDate apps av t hfind hs he hg hh]
  rw [Bool.not_eq_false]
  unfold hasAppointment
  rw [List.any_eq_true]
  constructor
  · rintro ⟨app, hmem, hp⟩
    simp only [Bool.and_eq_true, beq_iff_eq, Bool.not_eq_true',
      beq_eq_false_iff_ne] at hp
    refine ⟨app, hmem, hp.1.1.1, hp.1.1.2, hp.1.2, ?_⟩
    cases href : app.doctor with
    | id s =>
      left
      refine ⟨s, rfl, ?_⟩
      have := hp.2
      rw [href] at this
      simpa [refMatchesDoctor] using this
    | resolved d =>
      right
      refine ⟨d, rfl, ?_⟩
      have := hp.2
      rw [href] at this
      simpa [refMatchesDoctor] using this
  · rintro ⟨app, hmem, hdate, htime, hstatus, href⟩
    refine ⟨app, hmem, ?_⟩
    simp only [Bool.and_eq_true, beq_iff_eq, Bool.not_eq_true',
      beq_eq_false_iff_ne]
    refine ⟨⟨⟨hdate, htime⟩, hstatus⟩, ?_⟩
    rcases href with ⟨s, hd, hs'⟩ | ⟨d, hd, hd'⟩
    · rw [hd]
      simpa [refMatchesDoctor] using hs'
    · rw [hd]
      simpa [refMatchesDoctor] using hd'

/-- Concrete data for exercising `conflict_filter_exact`: the doctor of
`c2apps`'s single confirmed 09:00 appointment is given as a resolved
object. -/
def c2doc : Doctor := ⟨"doc-2", [⟨.monday, 480, 600⟩]⟩

/-- A confirmed Monday 09:00 (= 540) appointment referencing `c2doc` as a
resolved object. -/
def c2apps : List Appointment :=
  [⟨"apt-2", .resolved c2doc, 0, 540, .confirmed, "revision general", false⟩]

/-- Witness for C2 at a concrete input: 09:00 is excluded from the
available times exactly because of the conflicting resolved-doctor
appointment. -/
theorem conflict_filter_exact_witness :
    540 ∉ availableTimesFor c2doc 0 c2apps ↔
      ∃ app ∈ c2apps, app.date = 0 ∧ app.time = 540 ∧
        app.status ≠ AppointmentStatus.cancelled ∧
        ((∃ s, app.doctor = DoctorRef.id s ∧ s = c2doc._id) ∨
         (∃ d, app.doctor = DoctorRef.resolved d ∧ d._id = c2doc._id)) :=
  conflict_filter_exact c2doc 0 c2apps ⟨.monday, 480, 600⟩ 540 rfl
    (by decide) (by decide) (by decide) (by decide)

/-- Concrete doctor for the C3 scenario: available Mondays 08:00–10:00. -/
def c3doc : Doctor := ⟨"doc-3", [⟨.monday, 480, 600⟩]⟩

/-- The C3 appointment list: exactly one confirmed appointment for
`c3doc` on the selected Monday at 09:00 (= 540). -/
def c3apps : List Appointment :=
  [⟨"apt-3", .id "doc-3", 0, 540, .confirmed, "control mensual", false⟩]

/-- C3: the Monday 08:00–10:00 window with a confirmed 09:00 booking
yields exactly `[08:00, 08:30, 09:30]` (= `[480, 510, 570]` minutes). -/
theorem monday_scenario_slots :
    availableTimesFor c3doc 0 c3apps = [480, 510, 570] := by
  simp +decide [availableTimesFor, c3doc, c3apps, slotLoop, hasAppointment,
    refMatchesDoctor, weekdayOf]

/-- User roles, from `type UserRole` in `src/types/index.ts`. -/
inductive UserRole
  | patient | doctor
deriving DecidableEq, Repr, Fintype

/-- The component state read by `validateForm` and `handleSubmit`
(`AppointmentList.tsx`): the logged-in user's role, the `formData` fields,
the selected date and time pickers, and the current instant (`dayjs()`),
split into today's day index and the current minutes of day. -/
structure FormState where
  role : UserRole
  doctorId : String
  patientId : String
  reason : String
  selectedDate : Option Nat
  selectedTime : Option Nat
  today : Nat
  nowTime : Nat
deriving DecidableEq, Repr

/-- The date checks of `validateForm` (`AppointmentList.tsx`, lines
356–369): a date is required, must not lie in the past, and if it is
today the selected time must not have passed. -/
def dateChecksOk (f : FormState) : Bool :=
  match f.selectedDate with
  | none => false
  | some d =>
      !(decide (d < f.today)) &&
        !(d == f.today &&
          (match f.selectedTime with
           | some t => decide (t < f.nowTime)
           | none => false))

/-- The time checks of `validateForm` (`AppointmentList.tsx`, lines
371–386): a time is required, its hour must lie in `[8, 17)` and its
minute must be a multiple of 30. -/
def timeChecksOk (f : FormState) : Bool :=
  match f.selectedTime with
  | none => false
  | some t =>
      decide (8 ≤ t / 60) && decide (t / 60 < 17) &&
        decide ((t % 60) % 30 = 0)

/-- JavaScript's `String.prototype.trim()`: strip leading and trailing
whitespace (embedded with structural list operations so that concrete
instances evaluate in the kernel). -/
def jsTrim (s : String) : String :=
  ⟨((s.data.dropWhile Char.isWhitespace).reverse.dropWhile
      Char.isWhitespace).reverse⟩

/-- The reason checks of `validateForm` (`AppointmentList.tsx`, lines
388–394): non-blank after trimming, and 10–500 characters long. -/
def reasonChecksOk (f : FormState) : Bool :=
  !(jsTrim f.reason == "") && decide (10 ≤ f.reason.length) &&
    decide (f.reason.length ≤ 500)

/-- The function `validateForm` (`AppointmentList.tsx`, lines 331–398):
early rejection
when a doctor user has no patient selected or a patient user has no
doctor selected, then the accumulated date/time/reason error checks.
(The doctor branch also rewrites `formData.doctorId` to the user's own
id, a state write with no effect on the returned boolean.)  The function
returns `true` exactly when no error was recorded. -/
def validateForm (f : FormState) : Bool :=
  if f.role = UserRole.doctor then
    if f.patientId == "" then false
    else dateChecksOk f && timeChecksOk f && reasonChecksOk f
  else
    if f.doctorId == "" then false
    else dateChecksOk f && timeChecksOk f && reasonChecksOk f

/-- The two clock faces the MUI `TimePicker` queries through
`shouldDisableTime`. -/
inductive ClockView
  | hours | minutes
deriving DecidableEq, Repr

/-- The filter `shouldDisableTime` (`AppointmentList.tsx`, lines 842–855):
on the
hours face, hours outside `[8, 17)` are disabled; on the minutes face,
minutes not multiple of 30 are disabled; any remaining value is disabled
unless its `"HH:mm"` rendering occurs in `availableTimes`. -/
def shouldDisableTime (availTimes : List Nat) (t : Nat)
    (view : ClockView) : Bool :=
  let timeValue := match view with
    | .hours => t / 60
    | .minutes => t % 60
  if view = ClockView.hours ∧ (timeValue < 8 ∨ 17 ≤ timeValue) then true
  else if view = ClockView.minutes ∧ timeValue % 30 ≠ 0 then true
  else !(availTimes.contains t)

/-- The body sent by `handleSubmit` to the appointment service
(`AppointmentList.tsx`, lines 481–491). -/
structure AppointmentPayload where
  doctorId : String
  reason : String
  date : Nat
  time : Nat
  patientId : Option String
deriving DecidableEq, Repr

/-- The request `handleSubmit` ends up issuing: none (a validation error
stopped it), a create, or an update of the appointment being edited. -/
inductive SubmitAction
  | none
  | create (p : AppointmentPayload)
  | update (id : String) (p : AppointmentPayload)
deriving DecidableEq, Repr

/-- The handler `handleSubmit` (`AppointmentList.tsx`, lines 467–513):
abort when
`validateForm` fails; format the selected time (the `HH:mm` regex
re-check, which a minutes-of-day value below 1440 always passes); attach
the selected patient when a doctor creates a new appointment; then issue
the update (when editing) or the create.  The function receives no
appointment list: no slot-conflict re-check happens on this path. -/
def handleSubmit (f : FormState) (editing : Option String) : SubmitAction :=
  if !(validateForm f) then .none
  else
    match f.selectedTime, f.selectedDate with
    | some t, some d =>
        if t < 1440 then
          let payload : AppointmentPayload :=
            { doctorId := f.doctorId
              reason := jsTrim f.reason
              date := d
              time := t
              patientId :=
                if f.role = UserRole.doctor ∧ editing = Option.none ∧
                    ¬ f.patientId = "" then
                  some f.patientId
                else none }
          match editing with
          | some id => .update id payload
          | none => .create payload
        else .none
    | _, _ => .none

/-- The claim's notion of a time lying within the doctor's availability
window for the selected date's weekday (stated, not taken from the code:
`validateForm` computes no such thing). -/
def timeWithinAvailability (doc : Doctor) (selDate t : Nat) : Bool :=
  match doc.availability.find? (fun a => a.day == weekdayOf selDate) with
  | some av => decide (av.startTime ≤ t) && decide (t < av.endTime)
  | none => false

/-- A form accepted by `validateForm` passed the time checks. -/
theorem validateForm_timeChecks (f : FormState)
    (h : validateForm f = true) : timeChecksOk f = true := by
  unfold validateForm at h
  split at h
  · split at h
    · exact Bool.noConfusion h
    · simp only [Bool.and_eq_true] at h
      exact h.1.2
  · split at h
    · exact Bool.noConfusion h
    · simp only [Bool.and_eq_true] at h
      exact h.1.2

/-- What passing the time checks says about the selected time. -/
theorem timeChecksOk_some (f : FormState) (t : Nat)
    (h : timeChecksOk f = true) (ht : f.selectedTime = some t) :
    t % 30 = 0 ∧ 8 ≤ t / 60 ∧ t / 60 < 17 := by
  unfold timeChecksOk at h
  rw [ht] at h
  simp only [Bool.and_eq_true, decide_eq_true_eq] at h
  exact ⟨by omega, h.1.1, h.1.2⟩

/-- Concrete doctor for the C4 counterexample: only available Mondays
08:00–10:00. -/
def c4doc : Doctor := ⟨"doc-4", [⟨.monday, 480, 600⟩]⟩

/-- A form selecting `c4doc` on a Monday at 14:00 (= 840), far outside
the doctor's 08:00–10:00 window. -/
def c4form : FormState :=
  { role := .patient
    doctorId := "doc-4"
    patientId := ""
    reason := "dolor de cabeza fuerte"
    selectedDate := some 7
    selectedTime := some 840
    today := 0
    nowTime := 540 }

/-- C4 fails on the code: `validateForm` accepts a time outside the
referenced doctor's availability window (it never consults the
availability), and `handleSubmit` goes on to issue the create request for
it. -/
theorem validateForm_window_counterexample :
    validateForm c4form = true ∧
    c4form.doctorId = c4doc._id ∧
    c4form.selectedTime = some 840 ∧
    timeWithinAvailability c4doc 7 840 = false ∧
    handleSubmit c4form Option.none =
      SubmitAction.create
        ⟨"doc-4", "dolor de cabeza fuerte", 7, 840, Option.none⟩ := by
  exact ⟨by decide, rfl, rfl, by decide, by decide⟩

/-- C4 (amended): a submission accepted by `validateForm` has a time on
the 30-minute grid with hour in the `[8, 17)` operating window; the
availability-window restriction is enforced only by the `TimePicker`'s
`shouldDisableTime`, which disables every time absent from
`availableTimes`. -/
theorem validated_time_grid_and_hours :
    (∀ f : FormState, validateForm f = true →
      ∃ t, f.selectedTime = some t ∧ t % 30 = 0 ∧
        8 ≤ t / 60 ∧ t / 60 < 17) ∧
    (∀ (ts : List Nat) (t : Nat) (v : ClockView),
      t ∉ ts → shouldDisableTime ts t v = true) := by
  constructor
  · intro f h
    have htc := validateForm_timeChecks f h
    cases hsel : f.selectedTime with
    | none =>
        unfold timeChecksOk at htc
        rw [hsel] at htc
        exact Bool.noConfusion htc
    | some t =>
        obtain ⟨h30, h8, h17⟩ := timeChecksOk_some f t htc hsel
        exact ⟨t, rfl, h30, h8, h17⟩
  · intro ts t v hmem
    cases v with
    | hours =>
        by_cases hb : t / 60 < 8 ∨ 17 ≤ t / 60
        · simp [shouldDisableTime, hb]
        · simp [shouldDisableTime, hb, hmem]
    | minutes =>
        by_cases hb : t % 60 % 30 = 0
        · simp [shouldDisableTime, hb, hmem]
        · simp [shouldDisableTime, hb]

/-- A form accepted by `validateForm`: Monday day 7 at 09:00 with a valid
reason. -/
def c4okform : FormState :=
  { role := .patient
    doctorId := "doc-4"
    patientId := ""
    reason := "consulta de seguimiento"
    selectedDate := some 7
    selectedTime := some 540
    today := 0
    nowTime := 0 }

/-- Witness for the amended C4 at concrete inputs. -/
theorem validated_time_grid_and_hours_witness :
    (∃ t, c4okform.selectedTime = some t ∧ t % 30 = 0 ∧
      8 ≤ t / 60 ∧ t / 60 < 17) ∧
    shouldDisableTime [480, 510] 840 ClockView.minutes = true :=
  ⟨validated_time_grid_and_hours.1 c4okform (by decide),
   validated_time_grid_and_hours.2 [480, 510] 840 ClockView.minutes
     (by decide)⟩

/-- Concrete doctor for the C6 counterexample. -/
def c6doc : Doctor := ⟨"doc-6", [⟨.monday, 480, 600⟩]⟩

/-- An appointment list already holding a confirmed booking for `c6doc`
on day 7 at 09:00 (= 540). -/
def c6apps : List Appointment :=
  [⟨"apt-6", .id "doc-6", 7, 540, .confirmed, "primera consulta", false⟩]

/-- A form targeting exactly that already-booked slot. -/
def c6form : FormState :=
  { role := .patient
    doctorId := "doc-6"
    patientId := ""
    reason := "segunda opinion medica"
    selectedDate := some 7
    selectedTime := some 540
    today := 0
    nowTime := 0 }

/-- C6 fails on the code: the slot 09:00 on day 7 is already booked for
`c6doc` (the conflict test detects it), yet `handleSubmit` still issues
the create request for that very slot — no client-side write-time
re-validation and no `SlotConflict` failure happen on the submission
path. -/
theorem create_conflict_recheck_counterexample :
    hasAppointment c6apps 7 c6doc 540 = true ∧
    handleSubmit c6form Option.none =
      SubmitAction.create
        ⟨"doc-6", "segunda opinion medica", 7, 540, Option.none⟩ := by
  exact ⟨by decide, by decide⟩

/-- C6 (amended): the client performs no write-time conflict re-check:
whenever `validateForm` accepts a (non-editing) submission, `handleSubmit`
issues the create request carrying the chosen doctor, date and time.
Since `handleSubmit` receives no appointment list at all, the issued
request is the same whatever appointments exist; detecting a slot
conflict is delegated to the server, whose error the mutation's
`onError` handler surfaces. -/
theorem create_issued_without_conflict_recheck (f : FormState) (d t : Nat)
    (hv : validateForm f = true) (hd : f.selectedDate = some d)
    (ht : f.selectedTime = some t) :
    ∃ p : AppointmentPayload,
      handleSubmit f Option.none = SubmitAction.create p ∧
        p.doctorId = f.doctorId ∧ p.date = d ∧ p.time = t ∧
        p.reason = jsTrim f.reason := by
  have htc := validateForm_timeChecks f hv
  have hlt : t < 1440 := by
    have := timeChecksOk_some f t htc ht
    omega
  refine ⟨⟨f.doctorId, jsTrim f.reason, d, t,
    if f.role = UserRole.doctor ∧
        (Option.none : Option String) = Option.none ∧
        ¬ f.patientId = "" then
      some f.patientId
    else none⟩, ?_, rfl, rfl, rfl, rfl⟩
  unfold handleSubmit
  rw [hv, ht, hd]
  simp [hlt]

/-- Witness for the amended C6 at a concrete input: the create request is
issued for the booked 09:00 slot of `c6form`. -/
theorem create_issued_without_conflict_recheck_witness :
    ∃ p : AppointmentPayload,
      handleSubmit c6form Option.none = SubmitAction.create p ∧
        p.doctorId = c6form.doctorId ∧ p.date = 7 ∧ p.time = 540 ∧
        p.reason = jsTrim c6form.reason :=
  create_issued_without_conflict_recheck c6form 7 540 (by decide) rfl rfl

/-- Modelled from the spec: the appointment state-machine transition
table of §4.3 — `pending → {confirmed, cancelled}`,
`confirmed → {completed, no-show, cancelled}`,
`{completed, cancelled, no-show} → archived`.  The repository contains no
`transition()` function (status changes are requested of the backend);
only the table's callers — the status action buttons — are in the
source. -/
def allowedTransition : AppointmentStatus → AppointmentStatus → Bool
  | .pending, .confirmed => true
  | .pending, .cancelled => true
  | .confirmed, .completed => true
  | .confirmed, .noShow => true
  | .confirmed, .cancelled => true
  | .completed, .archived => true
  | .cancelled, .archived => true
  | .noShow, .archived => true
  | _, _ => false

/-- The error naming the current and requested states. -/
inductive TransitionError
  | invalidTransition (current requested : AppointmentStatus)
deriving DecidableEq, Repr

/-- Modelled from the spec: `transition()` of §4.3/§8 — validate the
legality of a status change, failing with `InvalidTransition` (naming the
current and requested states) on every pair outside the table. -/
def transition (s s' : AppointmentStatus) :
    Except TransitionError AppointmentStatus :=
  if allowedTransition s s' then Except.ok s'
  else Except.error (TransitionError.invalidTransition s s')

/-- The status changes the `AppointmentList` action buttons offer
(`AppointmentList.tsx`, lines 677–755), by user role, current status,
and whether the appointment's date has passed: the cancel button on
pending appointments, the doctor-only confirm button on pending ones,
the doctor-only complete / no-show buttons on past confirmed ones, and
the doctor-only archive button on completed, cancelled or no-show
ones. -/
def offeredStatusActions (role : UserRole) (st : AppointmentStatus)
    (datePast : Bool) : List AppointmentStatus :=
  (if st = .pending then [.cancelled] else []) ++
  (if role = .doctor ∧ st = .pending then [.confirmed] else []) ++
  (if role = .doctor ∧ st = .confirmed ∧ datePast = true then
    [.completed, .noShow]
  else []) ++
  (if role = .doctor ∧ (st = .completed ∨ st = .cancelled ∨ st = .noShow)
  then [.archived] else [])

/-- C5: every status pair outside the transition table fails with
`InvalidTransition` naming the current and requested states, and every
transition the appointment status actions offer lies inside the table
(so no invalid transition is ever offered or applied by the UI). -/
theorem invalid_transitions_rejected :
    (∀ s s' : AppointmentStatus, allowedTransition s s' = false →
      transition s s' =
        Except.error (TransitionError.invalidTransition s s')) ∧
    (∀ (role : UserRole) (st : AppointmentStatus) (datePast : Bool)
        (s' : AppointmentStatus),
      s' ∈ offeredStatusActions role st datePast →
      allowedTransition st s' = true) := by
  constructor
  · intro s s' h
    simp [transition, h]
  · intro role st datePast s' h
    revert h
    revert role st datePast s'
    decide

/-- Witness for C5 at concrete inputs: requesting `pending → completed`
fails with the named `InvalidTransition`, and the offered transition
`pending → cancelled` (the cancel button) is in the table. -/
theorem invalid_transitions_rejected_witness :
    transition AppointmentStatus.pending AppointmentStatus.completed =
      Except.error (TransitionError.invalidTransition
        AppointmentStatus.pending AppointmentStatus.completed) ∧
    allowedTransition AppointmentStatus.pending
      AppointmentStatus.cancelled = true :=
  ⟨invalid_transitions_rejected.1 AppointmentStatus.pending
      AppointmentStatus.completed (by decide),
   invalid_transitions_rejected.2 UserRole.patient AppointmentStatus.pending
      false AppointmentStatus.cancelled (by decide)⟩

/-- JavaScript's `token.includes('.')` (single-character case): the
character occurs in the string (embedded structurally on the character
list so concrete instances evaluate in the kernel). -/
def includesDot (s : String) : Bool := s.data.contains '.'

/-- The outcome of the local (pre-network) part of `checkAuth`
(`AuthContext.tsx`): no stored token, a structurally corrupt token, an
expired token, or a token handed on to the server-side verification. -/
inductive LocalAuthResult
  | noToken
  | malformed
  | expired
  | proceed (token : String)
deriving DecidableEq, Repr

/-- The local token checks of `checkAuth` (`AuthContext.tsx`, lines
27–63): read the stored token; reject a missing token; purge and reject a
token longer than 2000 characters or lacking the `'.'` segment separator;
try to decode the expiry claim (`JSON.parse(atob(parts[1])).exp`,
abstracted as the `decodeExp` parameter): a decodable expiry at or before
`nowMs` purges the token and rejects as expired, while an undecodable
expiry is deliberately let through to the server-side verification
("Continuar de todos modos, el backend validará").  Returns the new
stored-token slot and the outcome. -/
def checkAuthLocal (decodeExp : String → Option Nat) (nowMs : Nat)
    (stored : Option String) : Option String × LocalAuthResult :=
  match stored with
  | none => (none, .noToken)
  | some token =>
      if 2000 < token.length ∨ includesDot token = false then
        (none, .malformed)
      else
        match decodeExp token with
        | some exp =>
            if exp * 1000 ≤ nowMs then (none, .expired)
            else (some token, .proceed token)
        | none => (some token, .proceed token)

/-- The value `checkAuth` returns for each local outcome
(`part_005`, lines 71–112): `false` — unauthenticated — for a missing,
malformed or expired token; for a token handed on, whatever the
server-side verification (abstracted as `serverVerify`) yields. -/
def checkAuthOutcome (serverVerify : String → Bool) :
    LocalAuthResult → Bool
  | .noToken => false
  | .malformed => false
  | .expired => false
  | .proceed token => serverVerify token

/-- C7: a stored token that passes the structural check and whose expiry
claim decodes to an instant at or before now (in particular one second in
the past) is reported expired, yields an unauthenticated result whatever
the server would say, and is removed from storage. -/
theorem expired_token_purged (decodeExp : String → Option Nat)
    (serverVerify : String → Bool) (nowMs : Nat) (token : String)
    (exp : Nat) (hlen : token.length ≤ 2000)
    (hsep : includesDot token = true)
    (hdec : decodeExp token = some exp) (hexp : exp * 1000 ≤ nowMs) :
    checkAuthLocal decodeExp nowMs (some token) =
      (none, LocalAuthResult.expired) ∧
    checkAuthOutcome serverVerify LocalAuthResult.expired = false := by
  refine ⟨?_, rfl⟩
  simp [checkAuthLocal, hsep, hdec, hexp, Nat.not_lt.mpr hlen]

/-- Witness for C7 at a concrete input: the token `"a.b"` with a decoded
expiry of 1 (second), checked at `nowMs = 2000` — one second past the
expiry instant — is purged and reported expired. -/
theorem expired_token_purged_witness :
    checkAuthLocal (fun _ => some 1) 2000 (some "a.b") =
      (none, LocalAuthResult.expired) ∧
    checkAuthOutcome (fun _ => true) LocalAuthResult.expired = false :=
  expired_token_purged (fun _ => some 1) (fun _ => true) 2000 "a.b" 1
    (by decide) (by decide) rfl (by decide)

/-- C8: a stored token longer than 2000 characters or lacking the `'.'`
separator is treated as malformed, removed from storage, and yields an
unauthenticated (invalid-session) result. -/
theorem malformed_token_purged (decodeExp : String → Option Nat)
    (serverVerify : String → Bool) (nowMs : Nat) (token : String)
    (hbad : 2000 < token.length ∨ includesDot token = false) :
    checkAuthLocal decodeExp nowMs (some token) =
      (none, LocalAuthResult.malformed) ∧
    checkAuthOutcome serverVerify LocalAuthResult.malformed = false := by
  refine ⟨?_, rfl⟩
  simp [checkAuthLocal, hbad]

/-- Witness for C8 at a concrete input: the dot-less token `"abc"` is
purged and reported malformed. -/
theorem malformed_token_purged_witness :
    checkAuthLocal (fun _ => none) 0 (some "abc") =
      (none, LocalAuthResult.malformed) ∧
    checkAuthOutcome (fun _ => true) LocalAuthResult.malformed = false :=
  malformed_token_purged (fun _ => none) (fun _ => true) 0 "abc"
    (Or.inr (by decide))

/-- C9: a structurally acceptable token whose expiry claim does not
decode is provisionally valid — the stored credential is kept and the
check proceeds to the server-side verification (fail-open) — whereas a
decodable expiry at or before now is rejected and purged (fail-closed). -/
theorem undecodable_token_fail_open (decodeExp : String → Option Nat)
    (nowMs : Nat) (token : String) (hlen : token.length ≤ 2000)
    (hsep : includesDot token = true) :
    (decodeExp token = none →
      checkAuthLocal decodeExp nowMs (some token) =
        (some token, LocalAuthResult.proceed token)) ∧
    (∀ exp, decodeExp token = some exp → exp * 1000 ≤ nowMs →
      checkAuthLocal decodeExp nowMs (some token) =
        (none, LocalAuthResult.expired)) := by
  constructor
  · intro hdec
    simp [checkAuthLocal, hsep, hdec, Nat.not_lt.mpr hlen]
  · intro exp hdec hexp
    simp [checkAuthLocal, hsep, hdec, hexp, Nat.not_lt.mpr hlen]

/-- Witness for C9 at concrete inputs: the token `"x.y"` whose expiry
does not decode is kept and handed to the server; under a decoder that
reads expiry 1 at `nowMs = 2000` the same token is purged as expired. -/
theorem undecodable_token_fail_open_witness :
    checkAuthLocal (fun _ => none) 2000 (some "x.y") =
      (some "x.y", LocalAuthResult.proceed "x.y") ∧
    checkAuthLocal (fun _ => some 1) 2000 (some "x.y") =
      (none, LocalAuthResult.expired) :=
  ⟨(undecodable_token_fail_open (fun _ => none) 2000 "x.y" (by decide)
      (by decide)).1 rfl,
   (undecodable_token_fail_open (fun _ => some 1) 2000 "x.y" (by decide)
      (by decide)).2 1 rfl (by decide)⟩

/-- The body the HTTP GET of `/appointments` resolves to, as
`getAppointments` inspects it: a JSON array of appointments, or any
non-array value ("Respuesta de citas no es un array"). -/
inductive ApiPayload
  | arr (xs : List Appointment)
  | notArray
deriving DecidableEq, Repr

/-- The service call `appointmentService.getAppointments` (api service
module): read the
stored token — a missing token raises an error that the function's own
`catch` turns into `[]`; issue the GET (its outcome abstracted as the
`resp` argument, with transport and HTTP failures as `Except.error`);
return `[]` for a non-array body; return `[]` for any caught error;
otherwise return the array.  The `List` return type (rather than an
`Except`) reflects that every failure is swallowed inside the function. -/
def getAppointments (token : Option String)
    (resp : Except String ApiPayload) : List Appointment :=
  match token with
  | none => []
  | some _ =>
      match resp with
      | .error _ => []
      | .ok .notArray => []
      | .ok (.arr xs) => xs

/-- C10: `getAppointments` never propagates a failure — a missing stored
token, a transport/HTTP error and a non-array response each produce `[]`
— so its result on an empty successful response is indistinguishable
from its result on any failure. -/
theorem getAppointments_swallows_errors (token : Option String)
    (resp : Except String ApiPayload) :
    (token = none → getAppointments token resp = []) ∧
    (∀ e, resp = Except.error e → getAppointments token resp = []) ∧
    (resp = Except.ok ApiPayload.notArray →
      getAppointments token resp = []) ∧
    (∀ (t e : String),
      getAppointments (some t) (Except.ok (ApiPayload.arr [])) =
        getAppointments (some t) (Except.error e)) := by
  refine ⟨?_, ?_, ?_, ?_⟩
  · intro h
    rw [h]
    cases resp with
    | error e => rfl
    | ok p => cases p <;> rfl
  · intro e h
    rw [h]
    cases token <;> rfl
  · intro h
    rw [h]
    cases token <;> rfl
  · intro t e
    rfl

/-- Witness for C10 at concrete inputs: with no stored token, with a
network error, and with a non-array body, the result is `[]`, and an
empty successful fetch equals a failed one. -/
theorem getAppointments_swallows_errors_witness :
    getAppointments Option.none (Except.ok (ApiPayload.arr [])) = [] ∧
    getAppointments (some "tok") (Except.error "Network Error") = [] ∧
    getAppointments (some "tok") (Except.ok ApiPayload.notArray) = [] ∧
    getAppointments (some "tok") (Except.ok (ApiPayload.arr [])) =
      getAppointments (some "tok") (Except.error "Network Error") :=
  ⟨(getAppointments_swallows_errors Option.none
      (Except.ok (ApiPayload.arr []))).1 rfl,
   (getAppointments_swallows_errors (some "tok")
      (Except.error "Network Error")).2.1 "Network Error" rfl,
   (getAppointments_swallows_errors (some "tok")
      (Except.ok ApiPayload.notArray)).2.2.1 rfl,
   (getAppointments_swallows_errors (some "tok")
      (Except.ok (ApiPayload.arr []))).2.2.2 "tok" "Network Error"⟩
